import Mathlib

/-!
Shallow embedding of `src/market_data_adapter/market_data_adapter.py`
(class `MarketDataAdapter`) and of the message shapes in
`src/market_data_adapter/models.py`.

Conventions of the embedding:
* Python floats that can be NaN are modelled by `RawVal` (absent, NaN, or a
  rational number); `safe_float` mirrors the inner helper of
  `normalize_ticker`, mapping both `None` and NaN to `Option.none`.
* Pydantic message construction that can raise (a required `str` field
  receiving `None`) is modelled as an `Option`-returning constructor; the
  `try/except` around each poll cycle swallows the failure.
* The asyncio side is modelled by explicit state passing: each `async`
  operation of the adapter is a function from `AdapterState` (plus an
  environment `IBEnv` describing which feed calls fail) to an
  `Except AdapterError (AdapterState × List Effect)`, where `Effect` records
  the feed calls, task creations, log lines and teardown actions in program
  order.  Monitor tasks are created by `asyncio.create_task` and are never
  stored or cancelled by the code, which the state records in `tasks`.
* The monitor coroutines' infinite loops are modelled by running their loop
  body over a finite list of observations (ticker reads / tick-list states).
-/

namespace MarketData

/-- A raw feed field as seen on an `ib_insync` ticker: absent (`None`),
the NaN sentinel, or an actual number. -/
inductive RawVal
  | none
  | nan
  | num (q : ℚ)
deriving DecidableEq, Repr

/-- `safe_float` from `MarketDataAdapter.normalize_ticker`: converts a value
to a float, returning `None` if `None` or NaN. -/
def safe_float : RawVal → Option ℚ
  | .none => Option.none
  | .nan => Option.none
  | .num q => some q

/-- The fields of an `ib_insync` `Ticker` read by `normalize_ticker`. -/
structure Ticker where
  contractSymbol : Option String
  bid : RawVal
  ask : RawVal
  last : RawVal
  volume : RawVal
  time : Option String
deriving DecidableEq, Repr

/-- The dict returned by `MarketDataAdapter.normalize_ticker`. -/
structure NormalizedTicker where
  event_type : String
  symbol : Option String
  bid : Option ℚ
  ask : Option ℚ
  last : Option ℚ
  volume : Option ℚ
  timestamp : Option String
deriving DecidableEq, Repr

/-- `MarketDataAdapter.normalize_ticker`. -/
def normalize_ticker (t : Ticker) : NormalizedTicker :=
  { event_type := "top_of_book"
    symbol := t.contractSymbol
    bid := safe_float t.bid
    ask := safe_float t.ask
    last := safe_float t.last
    volume := safe_float t.volume
    timestamp := t.time }

/-- `models.TopOfBookMessage` (pydantic): `symbol` is a required `str`,
the market fields are optional. -/
structure TopOfBookMessage where
  event_type : String
  symbol : String
  bid : Option ℚ
  ask : Option ℚ
  last : Option ℚ
  volume : Option ℚ
  timestamp : Option String
deriving DecidableEq, Repr

/-- `TopOfBookMessage(**snapshot_dict)`: pydantic validation fails (raises)
when the required `symbol` field is `None`. -/
def TopOfBookMessage.ofDict (d : NormalizedTicker) : Option TopOfBookMessage :=
  match d.symbol with
  | some s =>
      some { event_type := d.event_type, symbol := s, bid := d.bid, ask := d.ask,
             last := d.last, volume := d.volume, timestamp := d.timestamp }
  | Option.none => Option.none

/-- One iteration of the `monitor()` loop inside
`MarketDataAdapter.subscribe_top_of_book`: normalize the ticker, build the
snapshot (a failure is caught, logged and skipped), and enqueue it only when
it differs from `prev_snapshot`.  Returns the messages put on the queue this
cycle and the new `prev_snapshot`. -/
def monitorStep (prev : Option TopOfBookMessage) (t : Ticker) :
    List TopOfBookMessage × Option TopOfBookMessage :=
  match TopOfBookMessage.ofDict (normalize_ticker t) with
  | some snapshot =>
      if some snapshot = prev then ([], prev) else ([snapshot], some snapshot)
  | Option.none => ([], prev)

/-- The `monitor()` loop run over a finite list of ticker reads, threading
`prev_snapshot` (which starts as `None`), collecting all enqueued messages. -/
def monitorRun : Option TopOfBookMessage → List Ticker → List TopOfBookMessage × Option TopOfBookMessage
  | prev, [] => ([], prev)
  | prev, t :: ts =>
      let s := monitorStep prev t
      let r := monitorRun s.2 ts
      (s.1 ++ r.1, r.2)

/-- All messages the quote monitor enqueues over a list of reads,
starting from the initial `prev_snapshot = None`. -/
def monitorEmits (reads : List Ticker) : List TopOfBookMessage :=
  (monitorRun Option.none reads).1

/-- The `prev_snapshot` cache after a list of reads, starting from `None`. -/
def monitorFinal (reads : List Ticker) : Option TopOfBookMessage :=
  (monitorRun Option.none reads).2

/-- An entry of the `ticker.tickByTicks` list read by `monitor_ticks` inside
`subscribe_tick_by_tick`. -/
structure TickEntry where
  time : Option String
  price : Option ℚ
  size : Option ℚ
  tickAttrib : Option (List (String × Bool))
deriving DecidableEq, Repr

/-- `models.TickByTickMessage`. -/
structure TickByTickMessage where
  event_type : String
  symbol : String
  time : Option String
  price : Option ℚ
  size : Option ℚ
  tickAttrib : Option (List (String × Bool))
deriving DecidableEq, Repr

/-- Construction of the `TickByTickMessage` inside `monitor_ticks`. -/
def mkTickByTickMessage (symbol tickType : String) (t : TickEntry) : TickByTickMessage :=
  { event_type := "tick_by_tick_" ++ tickType.toLower
    symbol := symbol
    time := t.time
    price := t.price
    size := t.size
    tickAttrib := t.tickAttrib }

/-- One iteration of the `monitor_ticks()` loop inside
`subscribe_tick_by_tick`: if `ticker.tickByTicks` is non-empty (Python list
truthiness) and its length exceeds `last_processed_count`, the slice from
`last_processed_count` on is emitted in order and the count becomes the list
length; otherwise nothing happens.  Returns the enqueued messages and the
new `last_processed_count`. -/
def monitor_ticks_step (symbol tickType : String) (ticks : List TickEntry) (cursor : ℕ) :
    List TickByTickMessage × ℕ :=
  if ticks ≠ [] ∧ ticks.length > cursor then
    ((ticks.drop cursor).map (mkTickByTickMessage symbol tickType), ticks.length)
  else
    ([], cursor)

/-- The `monitor_ticks()` loop run over a finite sequence of observed states
of the `tickByTicks` list (one list per poll cycle), threading the cursor. -/
def monitor_ticks_run (symbol tickType : String) :
    ℕ → List (List TickEntry) → List TickByTickMessage × ℕ
  | cursor, [] => ([], cursor)
  | cursor, l :: ls =>
      let s := monitor_ticks_step symbol tickType l cursor
      let r := monitor_ticks_run symbol tickType s.2 ls
      (s.1 ++ r.1, r.2)

/-- One price level of a DOM ladder (`ticker.domBids` / `ticker.domAsks`). -/
structure DOMLevel where
  price : ℚ
  size : ℚ
deriving DecidableEq, Repr

/-- `models.MarketDepthMessage` (`operation`: 0=insert, 1=update, 2=delete;
`side`: 0=bid, 1=ask). -/
structure MarketDepthMessage where
  event_type : String
  symbol : String
  position : ℕ
  operation : ℕ
  side : ℕ
  price : ℚ
  size : ℚ
deriving DecidableEq, Repr

/-- The `on_depth_update` callback registered by
`MarketDataAdapter.subscribe_order_book`: on each invocation it walks the
whole current bid ladder, then the whole current ask ladder, enqueueing one
update message per occupied rank. -/
def on_depth_update (symbol : String) (domBids domAsks : List DOMLevel) :
    List MarketDepthMessage :=
  (domBids.enum.map fun p =>
    { event_type := "market_depth", symbol := symbol, position := p.1,
      operation := 1, side := 0, price := p.2.price, size := p.2.size }) ++
  (domAsks.enum.map fun p =>
    { event_type := "market_depth", symbol := symbol, position := p.1,
      operation := 1, side := 1, price := p.2.price, size := p.2.size })

/-- The error raised by the adapter's subscribe/request operations when the
symbol has no registered contract: the code raises
`ValueError("Symbol ... not defined ...")`, which the spec's taxonomy calls
`UnknownSymbol`. -/
inductive AdapterError
  | unknownSymbol (symbol : String)
deriving DecidableEq, Repr

/-- An observable action of the adapter, in program order: feed calls made
through `self.ib`, task creations (`asyncio.create_task`), log lines, and
the final connection teardown (`self.ib.disconnect()`). -/
inductive Effect
  | reqMktData (symbol : String)
  | reqTickByTickData (symbol tickType : String)
  | reqMktDepth (symbol : String) (numRows : ℕ) (isSmartDepth : Bool)
  | cancelMktData (contractSymbol : String)
  | cancelMktDepth (contractSymbol : String) (isSmartDepth : Bool)
  | createTask (id : ℕ)
  | logInfo (msg : String)
  | logWarning (msg : String)
  | ibDisconnect
deriving DecidableEq, Repr

/-- Which feed calls raise, per symbol: the environment of one run.
`cancelMktDataFails`/`cancelMktDepthFails` model exceptions inside
`cleanup_subscriptions`; `reqSmartDepthFails` models the feed rejecting
smart-depth capability inside `subscribe_smart_depth`. -/
structure IBEnv where
  cancelMktDataFails : String → Bool
  cancelMktDepthFails : String → Bool
  reqSmartDepthFails : String → Bool

/-- A stored feed subscription handle (`Ticker` object stored in
`ticker_subs` / `l2_depth_subs`); `cleanup_subscriptions` reads its
`contract` attribute, which can in principle be absent/None. -/
structure FeedSub where
  contract : Option String
deriving DecidableEq, Repr

/-- What kind of monitor coroutine a created task runs. -/
inductive MonitorKind
  | topOfBook
  | tickByTick (tickType : String)
deriving DecidableEq, Repr

/-- A monitor task created by `asyncio.create_task`.  The code keeps no
handle to it and never cancels it: once in `tasks`, it stays. -/
structure MonitorTask where
  id : ℕ
  symbol : String
  kind : MonitorKind
deriving DecidableEq, Repr

/-- The mutable state of a `MarketDataAdapter` instance: the connection
handle (`ib`), the contract registry, both subscription dicts (modelled as
insertion-ordered association lists with unique keys, like Python dicts),
the running monitor tasks, and a counter for fresh task ids. -/
structure AdapterState where
  connected : Bool
  contracts : List String
  ticker_subs : List (String × FeedSub)
  l2_depth_subs : List (String × FeedSub)
  tasks : List MonitorTask
  nextTask : ℕ
deriving DecidableEq, Repr

/-- `MarketDataAdapter.__init__`: no connection, empty registries. -/
def initialState : AdapterState :=
  { connected := false, contracts := [], ticker_subs := [], l2_depth_subs := [],
    tasks := [], nextTask := 0 }

/-- Python dict assignment `d[k] = v`: replace the value at an existing key
in place, otherwise append the pair. -/
def dictInsert (k : String) (v : FeedSub) : List (String × FeedSub) → List (String × FeedSub)
  | [] => [(k, v)]
  | (k', v') :: rest =>
      if k' = k then (k, v) :: rest else (k', v') :: dictInsert k v rest

/-- `MarketDataAdapter.connect`: set up the connection handle. -/
def connect (st : AdapterState) : AdapterState × List Effect :=
  ({ st with connected := true }, [.logInfo "Connecting to IBKR...", .logInfo "Connected."])

/-- `MarketDataAdapter.define_contracts`: register a `Stock` contract for
each symbol, keyed by symbol. -/
def define_contracts (st : AdapterState) (symbol_list : List String) : AdapterState :=
  { st with contracts :=
      symbol_list.foldl (fun acc sym => if sym ∈ acc then acc else acc ++ [sym]) st.contracts }

/-- `MarketDataAdapter.subscribe_top_of_book`: check the contract registry,
request streaming market data, spawn the `monitor()` task, store the ticker
under the plain symbol key. -/
def subscribe_top_of_book (st : AdapterState) (symbol : String) :
    Except AdapterError (AdapterState × List Effect) :=
  if symbol ∈ st.contracts then
    .ok ({ st with
            ticker_subs := dictInsert symbol ⟨some symbol⟩ st.ticker_subs
            tasks := st.tasks ++ [⟨st.nextTask, symbol, .topOfBook⟩]
            nextTask := st.nextTask + 1 },
         [.reqMktData symbol, .createTask st.nextTask,
          .logInfo ("Subscribed to top-of-book for " ++ symbol)])
  else
    .error (.unknownSymbol symbol)

/-- `MarketDataAdapter.subscribe_tick_by_tick`: check the contract registry,
request tick-by-tick data, store the ticker under the
`symbol ++ "_tick_" ++ tickType` key, spawn the `monitor_ticks()` task. -/
def subscribe_tick_by_tick (st : AdapterState) (symbol : String) (tickType : String) :
    Except AdapterError (AdapterState × List Effect) :=
  if symbol ∈ st.contracts then
    .ok ({ st with
            ticker_subs := dictInsert (symbol ++ "_tick_" ++ tickType) ⟨some symbol⟩ st.ticker_subs
            tasks := st.tasks ++ [⟨st.nextTask, symbol, .tickByTick tickType⟩]
            nextTask := st.nextTask + 1 },
         [.reqTickByTickData symbol tickType, .createTask st.nextTask,
          .logInfo ("Subscribed to tick-by-tick [" ++ tickType ++ "] for " ++ symbol)])
  else
    .error (.unknownSymbol symbol)

/-- `MarketDataAdapter.subscribe_order_book`: check the contract registry,
request standard (non-smart) market depth, store the ticker in
`l2_depth_subs` under the plain symbol key, attach `on_depth_update` to the
ticker's update event (no task is created). -/
def subscribe_order_book (st : AdapterState) (symbol : String) (numRows : ℕ) :
    Except AdapterError (AdapterState × List Effect) :=
  if symbol ∈ st.contracts then
    .ok ({ st with l2_depth_subs := dictInsert symbol ⟨some symbol⟩ st.l2_depth_subs },
         [.reqMktDepth symbol numRows false,
          .logInfo ("Subscribed to market depth for " ++ symbol ++ " (v2)")])
  else
    .error (.unknownSymbol symbol)

/-- `MarketDataAdapter.subscribe_smart_depth`: check the contract registry,
then try a smart-depth subscription; if the feed call raises, log a warning
and fall back to `subscribe_order_book` for the same symbol. -/
def subscribe_smart_depth (env : IBEnv) (st : AdapterState) (symbol : String) (numRows : ℕ) :
    Except AdapterError (AdapterState × List Effect) :=
  if symbol ∈ st.contracts then
    if env.reqSmartDepthFails symbol then
      match subscribe_order_book st symbol numRows with
      | .ok (st', effs) =>
          .ok (st', .reqMktDepth symbol numRows true
                      :: .logWarning ("Smart depth not available for " ++ symbol)
                      :: effs)
      | .error e => .error e
    else
      .ok ({ st with l2_depth_subs := dictInsert (symbol ++ "_smart") ⟨some symbol⟩ st.l2_depth_subs },
           [.reqMktDepth symbol numRows true,
            .logInfo ("Subscribed to smart (L3) market depth for " ++ symbol)])
  else
    .error (.unknownSymbol symbol)

/-- `MarketDataAdapter.request_historical_data`: the contract check alone is
state-relevant; on success the bars are fetched and one response message is
enqueued (no registry change, no task). -/
def request_historical_data (st : AdapterState) (symbol : String) :
    Except AdapterError (AdapterState × List Effect) :=
  if symbol ∈ st.contracts then .ok (st, []) else .error (.unknownSymbol symbol)

/-- `MarketDataAdapter.request_fundamental_data`: contract check, then a
fundamental-data fetch and one enqueued response. -/
def request_fundamental_data (st : AdapterState) (symbol : String) :
    Except AdapterError (AdapterState × List Effect) :=
  if symbol ∈ st.contracts then .ok (st, []) else .error (.unknownSymbol symbol)

/-- `MarketDataAdapter.request_fundamental_ratios`: contract check, then a
`FinRatios` fetch and one enqueued response. -/
def request_fundamental_ratios (st : AdapterState) (symbol : String) :
    Except AdapterError (AdapterState × List Effect) :=
  if symbol ∈ st.contracts then .ok (st, []) else .error (.unknownSymbol symbol)

/-- Handling of one `ticker_subs` entry inside `cleanup_subscriptions`:
`if hasattr(ticker, 'contract') and ticker.contract:` guards the
`cancelMktData` call, whose exception (if any) is caught and logged. -/
def cleanupTickerEntry (env : IBEnv) (p : String × FeedSub) : List Effect :=
  match p.2.contract with
  | some c =>
      .cancelMktData c ::
        (if env.cancelMktDataFails c then
          [.logWarning ("Error cancelling market data subscription for " ++ p.1)]
        else
          [.logInfo ("Cancelled market data subscription for " ++ p.1)])
  | Option.none => []

/-- Handling of one `l2_depth_subs` entry inside `cleanup_subscriptions`:
same guard, `cancelMktDepth(contract, isSmartDepth=False)`, exception caught
and logged. -/
def cleanupDepthEntry (env : IBEnv) (p : String × FeedSub) : List Effect :=
  match p.2.contract with
  | some c =>
      .cancelMktDepth c false ::
        (if env.cancelMktDepthFails c then
          [.logWarning ("Error cancelling market depth subscription for " ++ p.1)]
        else
          [.logInfo ("Cancelled market depth subscription for " ++ p.1)])
  | Option.none => []

/-- `MarketDataAdapter.cleanup_subscriptions`: walk every `ticker_subs`
entry, then every `l2_depth_subs` entry (each cancellation attempt wrapped
in its own `try/except`, so a failure never stops the sweep), then clear
both dicts.  Total by construction: the method itself never raises. -/
def cleanup_subscriptions (env : IBEnv) (st : AdapterState) : AdapterState × List Effect :=
  ({ st with ticker_subs := [], l2_depth_subs := [] },
   (st.ticker_subs.map (cleanupTickerEntry env)).flatten ++
     (st.l2_depth_subs.map (cleanupDepthEntry env)).flatten)

/-- `MarketDataAdapter.disconnect`: if the connection handle exists, run
`cleanup_subscriptions()` and only then `self.ib.disconnect()`. -/
def disconnect (env : IBEnv) (st : AdapterState) : AdapterState × List Effect :=
  if st.connected then
    let c := cleanup_subscriptions env st
    ({ c.1 with connected := false },
     c.2 ++ [.ibDisconnect, .logInfo "Disconnected."])
  else
    (st, [])

/-! ### Concrete fixtures used by counterexamples and witnesses -/

/-- An environment in which every feed call succeeds. -/
def env0 : IBEnv := ⟨fun _ => false, fun _ => false, fun _ => false⟩

/-- An environment in which every cancellation and the smart-depth request
raise. -/
def envFail : IBEnv := ⟨fun _ => true, fun _ => true, fun _ => true⟩

/-- A sample tick entry. -/
def tick0 : TickEntry := ⟨some "2024-01-02T10:00:00", some 101, some 2, Option.none⟩

/-- A second sample tick entry. -/
def tick1 : TickEntry := ⟨some "2024-01-02T10:00:01", some (102 : ℚ), some 1, Option.none⟩

/-- A ticker read whose market fields are all absent or NaN. -/
def tickerAllUnknown : Ticker :=
  ⟨some "AAPL", .nan, .nan, RawVal.none, .nan, Option.none⟩

/-- The snapshot `tickerAllUnknown` normalizes to: every optional field
unknown. -/
def snapshotAllUnknown : TopOfBookMessage :=
  ⟨"top_of_book", "AAPL", Option.none, Option.none, Option.none, Option.none, Option.none⟩

/-- A ticker read with concrete quote values. -/
def tickerA : Ticker :=
  ⟨some "AAPL", .num 150, .num 151, .num 150, .num 1000, some "2024-01-02T10:00:00"⟩

/-- The snapshot `tickerA` normalizes to. -/
def snapshotA : TopOfBookMessage :=
  ⟨"top_of_book", "AAPL", some 150, some 151, some 150, some 1000,
   some "2024-01-02T10:00:00"⟩

/-! ### C2 — incremental-list monitor, list shorter than cursor -/

/-- C2 counterexample: with one entry in the list and the cursor at 2
(`length < cursor`), the claim requires the cursor to be reset to 0 and the
entry to be re-emitted; the loop body instead emits nothing and leaves the
cursor at 2 (the `length > cursor` branch is the only one that acts). -/
theorem ticks_step_shrunk_list_counterexample :
    [tick0].length < 2
    ∧ (monitor_ticks_step "AAPL" "Last" [tick0] 2).1 = []
    ∧ (monitor_ticks_step "AAPL" "Last" [tick0] 2).2 = 2 := by decide

/-- C2 amended: if on a poll cycle the tick list's length is strictly below
the cursor, the monitor emits nothing and leaves the cursor unchanged (there
is no reset-to-0 handling; entries of the shrunk list are not re-emitted). -/
theorem ticks_step_stale_cursor_no_reset (symbol tickType : String)
    (ticks : List TickEntry) (cursor : ℕ) (h : ticks.length < cursor) :
    monitor_ticks_step symbol tickType ticks cursor = ([], cursor) := by
  unfold monitor_ticks_step
  rw [if_neg]
  rintro ⟨-, hgt⟩
  omega

/-- Witness for the C2 amended theorem at the counterexample input. -/
theorem ticks_step_stale_cursor_no_reset_witness :
    [tick0].length < 2 ∧ monitor_ticks_step "AAPL" "Last" [tick0] 2 = ([], 2) :=
  ⟨by decide, ticks_step_stale_cursor_no_reset "AAPL" "Last" [tick0] 2 (by decide)⟩

/-! ### C6 — unknown symbol rejected synchronously, state untouched -/

/-- C6: every subscribe/request operation on a symbol without a registered
contract fails with the `UnknownSymbol` error (a `ValueError` in the code),
before any feed call, task creation or state change: the result is exactly
the error, carrying no new state and no effects. -/
theorem unknown_symbol_rejected (env : IBEnv) (st : AdapterState)
    (symbol tickType : String) (numRows : ℕ) (h : symbol ∉ st.contracts) :
    subscribe_top_of_book st symbol = .error (.unknownSymbol symbol)
    ∧ subscribe_tick_by_tick st symbol tickType = .error (.unknownSymbol symbol)
    ∧ subscribe_order_book st symbol numRows = .error (.unknownSymbol symbol)
    ∧ subscribe_smart_depth env st symbol numRows = .error (.unknownSymbol symbol)
    ∧ request_historical_data st symbol = .error (.unknownSymbol symbol)
    ∧ request_fundamental_data st symbol = .error (.unknownSymbol symbol)
    ∧ request_fundamental_ratios st symbol = .error (.unknownSymbol symbol) := by
  refine ⟨?_, ?_, ?_, ?_, ?_, ?_, ?_⟩ <;>
    simp [subscribe_top_of_book, subscribe_tick_by_tick, subscribe_order_book,
      subscribe_smart_depth, request_historical_data, request_fundamental_data,
      request_fundamental_ratios, h]

/-- Witness for C6 on the fresh adapter, which has no contracts. -/
theorem unknown_symbol_rejected_witness :
    "MSFT" ∉ initialState.contracts
    ∧ subscribe_top_of_book initialState "MSFT" = .error (.unknownSymbol "MSFT") :=
  ⟨by decide, (unknown_symbol_rejected env0 initialState "MSFT" "Last" 5 (by decide)).1⟩

/-! ### C10 — the first successfully constructed snapshot is emitted -/

/-- C10: starting from the empty `prev_snapshot` cache, after any run of
reads whose snapshot construction fails, the first read whose snapshot is
successfully constructed is emitted first, whatever its field values
(including the all-unknown snapshot): any snapshot differs from `None`. -/
theorem first_snapshot_always_emitted (pre rest : List Ticker) (t : Ticker)
    (s : TopOfBookMessage)
    (hpre : ∀ u ∈ pre, TopOfBookMessage.ofDict (normalize_ticker u) = Option.none)
    (ht : TopOfBookMessage.ofDict (normalize_ticker t) = some s) :
    (monitorEmits (pre ++ t :: rest)).head? = some s := by
  unfold monitorEmits
  induction pre with
  | nil =>
      simp only [List.nil_append, monitorRun, monitorStep, ht]
      rw [if_neg (by simp)]
      simp
  | cons u us ih =>
      have hu := hpre u (by simp)
      have hus : ∀ v ∈ us, TopOfBookMessage.ofDict (normalize_ticker v) = Option.none :=
        fun v hv => hpre v (by simp [hv])
      simpa [monitorRun, monitorStep, hu] using ih hus

/-- Witness for C10: the very first read, an all-unknown snapshot, is
emitted. -/
theorem first_snapshot_always_emitted_witness :
    TopOfBookMessage.ofDict (normalize_ticker tickerAllUnknown) = some snapshotAllUnknown
    ∧ (monitorEmits ([] ++ tickerAllUnknown :: [])).head? = some snapshotAllUnknown :=
  ⟨by decide,
   first_snapshot_always_emitted [] [] tickerAllUnknown snapshotAllUnknown
     (by simp) (by decide)⟩

/-! ### C5 — depth callback emits the full ladder -/

/-- C5: one `on_depth_update` invocation with bid ladder of length `m` and
ask ladder of length `n` produces exactly `m + n` messages, all with
`operation = 1` (update); the first `m` carry positions `0..m-1` with the
bid levels' price/size and `side = 0`, the next `n` carry positions
`0..n-1` with the ask levels' price/size and `side = 1`. -/
theorem depth_update_full_ladder (symbol : String) (domBids domAsks : List DOMLevel) :
    (on_depth_update symbol domBids domAsks).length = domBids.length + domAsks.length
    ∧ (∀ m ∈ on_depth_update symbol domBids domAsks, m.operation = 1 ∧ m.symbol = symbol)
    ∧ (∀ i, i < domBids.length →
        (on_depth_update symbol domBids domAsks)[i]? =
          some { event_type := "market_depth", symbol := symbol, position := i,
                 operation := 1, side := 0,
                 price := (domBids.get? i).elim 0 DOMLevel.price,
                 size := (domBids.get? i).elim 0 DOMLevel.size })
    ∧ (∀ j, j < domAsks.length →
        (on_depth_update symbol domBids domAsks)[domBids.length + j]? =
          some { event_type := "market_depth", symbol := symbol, position := j,
                 operation := 1, side := 1,
                 price := (domAsks.get? j).elim 0 DOMLevel.price,
                 size := (domAsks.get? j).elim 0 DOMLevel.size }) := by
  refine ⟨by simp [on_depth_update], ?_, ?_, ?_⟩
  · intro m hm
    simp only [on_depth_update, List.mem_append, List.mem_map] at hm
    rcases hm with ⟨p, _, rfl⟩ | ⟨p, _, rfl⟩ <;> exact ⟨rfl, rfl⟩
  · intro i hi
    have hlen : i < (domBids.enum.map fun p =>
        ({ event_type := "market_depth", symbol := symbol, position := p.1,
           operation := 1, side := 0, price := p.2.price,
           size := p.2.size } : MarketDepthMessage)).length := by
      simpa using hi
    rw [on_depth_update, List.getElem?_append_left hlen, List.getElem?_map,
      List.getElem?_enum, List.get?_eq_getElem?, List.getElem?_eq_getElem hi]
    simp
  · intro j hj
    have hlen : (domBids.enum.map fun p =>
        ({ event_type := "market_depth", symbol := symbol, position := p.1,
           operation := 1, side := 0, price := p.2.price,
           size := p.2.size } : MarketDepthMessage)).length ≤ domBids.length + j := by
      simp
    rw [on_depth_update, List.getElem?_append_right hlen, List.getElem?_map,
      List.getElem?_enum, List.get?_eq_getElem?]
    have : domBids.length + j - (domBids.enum.map fun p =>
        ({ event_type := "market_depth", symbol := symbol, position := p.1,
           operation := 1, side := 0, price := p.2.price,
           size := p.2.size } : MarketDepthMessage)).length = j := by
      simp
    rw [this, List.getElem?_eq_getElem hj]
    simp

/-- Witness for C5 on a two-level bid ladder and one-level ask ladder. -/
theorem depth_update_full_ladder_witness :
    (1 : ℕ) < [(⟨150, 3⟩ : DOMLevel), ⟨149, 5⟩].length
    ∧ (on_depth_update "AAPL" [⟨150, 3⟩, ⟨149, 5⟩] [⟨151, 4⟩])[1]? =
        some { event_type := "market_depth", symbol := "AAPL", position := 1,
               operation := 1, side := 0,
               price := (([(⟨150, 3⟩ : DOMLevel), ⟨149, 5⟩].get? 1).elim 0 DOMLevel.price),
               size := (([(⟨150, 3⟩ : DOMLevel), ⟨149, 5⟩].get? 1).elim 0 DOMLevel.size) } :=
  ⟨by decide,
   (depth_update_full_ladder "AAPL" [⟨150, 3⟩, ⟨149, 5⟩] [⟨151, 4⟩]).2.2.1 1 (by decide)⟩

/-! ### C9 — the cleanup sweep is total and failure tolerant -/

/-- The contract symbol a cancellation effect targets, if the effect is a
cancellation. -/
def Effect.cancelTarget : Effect → Option String
  | .cancelMktData c => some c
  | .cancelMktDepth c _ => some c
  | _ => Option.none

/-- Whether an effect is a cancellation call. -/
def Effect.isCancel : Effect → Bool
  | .cancelMktData _ => true
  | .cancelMktDepth _ _ => true
  | _ => false

/-- The sweep over `ticker_subs` issues exactly one cancellation per entry
whose handle has a contract, in registry order, whatever fails. -/
lemma cleanupTicker_cancels (env : IBEnv) (l : List (String × FeedSub)) :
    ((l.map (cleanupTickerEntry env)).flatten).filterMap Effect.cancelTarget
      = l.filterMap fun p => p.2.contract := by
  induction l with
  | nil => rfl
  | cons p rest ih =>
      simp only [List.map_cons, List.flatten_cons, List.filterMap_append, ih,
        List.filterMap_cons]
      cases hc : p.2.contract with
      | none => simp [cleanupTickerEntry, hc]
      | some c =>
          cases henv : env.cancelMktDataFails c <;>
            simp [cleanupTickerEntry, hc, henv, Effect.cancelTarget]

/-- The sweep over `l2_depth_subs` issues exactly one cancellation per entry
whose handle has a contract, in registry order, whatever fails. -/
lemma cleanupDepth_cancels (env : IBEnv) (l : List (String × FeedSub)) :
    ((l.map (cleanupDepthEntry env)).flatten).filterMap Effect.cancelTarget
      = l.filterMap fun p => p.2.contract := by
  induction l with
  | nil => rfl
  | cons p rest ih =>
      simp only [List.map_cons, List.flatten_cons, List.filterMap_append, ih,
        List.filterMap_cons]
      cases hc : p.2.contract with
      | none => simp [cleanupDepthEntry, hc]
      | some c =>
          cases henv : env.cancelMktDepthFails c <;>
            simp [cleanupDepthEntry, hc, henv, Effect.cancelTarget]

/-- Extracting the contracts of a registry whose handles all have one keeps
the length. -/
lemma filterMap_contract_length (l : List (String × FeedSub))
    (h : ∀ p ∈ l, (p.2 : FeedSub).contract.isSome = true) :
    (l.filterMap fun p => p.2.contract).length = l.length := by
  induction l with
  | nil => rfl
  | cons p rest ih =>
      have hp := h p (by simp)
      rcases Option.isSome_iff_exists.1 hp with ⟨c, hc⟩
      simp only [List.filterMap_cons, hc, List.length_cons]
      rw [ih fun q hq => h q (by simp [hq])]

/-- The whole sweep's cancellation calls, per entry, in sweep order. -/
lemma cleanup_cancels_all (env : IBEnv) (st : AdapterState) :
    (cleanup_subscriptions env st).2.filterMap Effect.cancelTarget
      = (st.ticker_subs ++ st.l2_depth_subs).filterMap (fun p => p.2.contract) := by
  simp only [cleanup_subscriptions, List.filterMap_append, cleanupTicker_cancels,
    cleanupDepth_cancels]

/-- C9: for every registry state and every pattern of per-entry
cancellation failures, `cleanup_subscriptions` empties both registries and
issues the cancellation calls of all entries in sweep order (a failing entry
never stops the sweep; the method, each entry wrapped in its own
`try/except`, never raises); when every stored handle has a contract, the
number of cancellation attempts equals the number of registry entries. -/
theorem cleanup_total_sweep (env : IBEnv) (st : AdapterState) :
    (cleanup_subscriptions env st).1.ticker_subs = []
    ∧ (cleanup_subscriptions env st).1.l2_depth_subs = []
    ∧ (cleanup_subscriptions env st).2.filterMap Effect.cancelTarget
        = (st.ticker_subs ++ st.l2_depth_subs).filterMap (fun p => p.2.contract)
    ∧ ((∀ p ∈ st.ticker_subs ++ st.l2_depth_subs, (p.2 : FeedSub).contract.isSome = true) →
        ((cleanup_subscriptions env st).2.filterMap Effect.cancelTarget).length
          = st.ticker_subs.length + st.l2_depth_subs.length) := by
  have hmain := cleanup_cancels_all env st
  refine ⟨rfl, rfl, hmain, fun h => ?_⟩
  rw [hmain, filterMap_contract_length _ h, List.length_append]

/-- A registry state with two quote-style subscriptions and one depth
subscription, as left by the subscribe operations. -/
def c9State : AdapterState :=
  { connected := true, contracts := ["AAPL", "MSFT"],
    ticker_subs := [("AAPL", ⟨some "AAPL"⟩), ("MSFT_tick_Last", ⟨some "MSFT"⟩)],
    l2_depth_subs := [("AAPL", ⟨some "AAPL"⟩)],
    tasks := [], nextTask := 2 }

/-- Witness for C9 in the environment where every cancellation raises: all
three entries are still attempted and both registries end empty. -/
theorem cleanup_total_sweep_witness :
    (∀ p ∈ c9State.ticker_subs ++ c9State.l2_depth_subs,
      (p.2 : FeedSub).contract.isSome = true)
    ∧ ((cleanup_subscriptions envFail c9State).2.filterMap Effect.cancelTarget).length
        = c9State.ticker_subs.length + c9State.l2_depth_subs.length :=
  ⟨by decide, (cleanup_total_sweep envFail c9State).2.2.2 (by decide)⟩

/-! ### C7 — smart-depth rejection falls back to standard depth -/

/-- Inserting a key-value pair leaves that pair in the dict. -/
lemma mem_dictInsert_self (k : String) (v : FeedSub) (l : List (String × FeedSub)) :
    (k, v) ∈ dictInsert k v l := by
  induction l with
  | nil => simp [dictInsert]
  | cons p rest ih =>
      by_cases hk : p.1 = k <;> simp [dictInsert, hk, ih]

/-- C7: for a symbol with a registered contract, `subscribe_smart_depth`
succeeds whether or not the feed accepts smart depth; when the smart-depth
request raises, a warning is logged, a standard (non-smart) depth request is
made instead, and the state ends with a standard depth subscription stored
under the plain symbol key. -/
theorem smart_depth_fallback (env : IBEnv) (st : AdapterState) (symbol : String)
    (numRows : ℕ) (h : symbol ∈ st.contracts) :
    ∃ st' effs, subscribe_smart_depth env st symbol numRows = .ok (st', effs)
      ∧ (env.reqSmartDepthFails symbol = true →
          Effect.logWarning ("Smart depth not available for " ++ symbol) ∈ effs
          ∧ Effect.reqMktDepth symbol numRows false ∈ effs
          ∧ (symbol, (⟨some symbol⟩ : FeedSub)) ∈ st'.l2_depth_subs) := by
  unfold subscribe_smart_depth
  rw [if_pos h]
  cases henv : env.reqSmartDepthFails symbol with
  | false =>
      refine ⟨_, _, rfl, fun hcontra => ?_⟩
      simp at hcontra
  | true =>
      unfold subscribe_order_book
      rw [if_pos h]
      refine ⟨_, _, rfl, fun _ => ⟨by simp, by simp, ?_⟩⟩
      exact mem_dictInsert_self symbol ⟨some symbol⟩ st.l2_depth_subs

/-- A state with one registered contract, as left by `define_contracts`. -/
def stOneContract : AdapterState := define_contracts initialState ["AAPL"]

/-- Witness for C7 in the environment where the smart-depth request always
raises. -/
theorem smart_depth_fallback_witness :
    "AAPL" ∈ stOneContract.contracts
    ∧ ∃ st' effs, subscribe_smart_depth envFail stOneContract "AAPL" 10 = .ok (st', effs)
      ∧ (envFail.reqSmartDepthFails "AAPL" = true →
          Effect.logWarning ("Smart depth not available for " ++ "AAPL") ∈ effs
          ∧ Effect.reqMktDepth "AAPL" 10 false ∈ effs
          ∧ ("AAPL", (⟨some "AAPL"⟩ : FeedSub)) ∈ st'.l2_depth_subs) :=
  ⟨by decide, smart_depth_fallback envFail stOneContract "AAPL" 10 (by decide)⟩

/-! ### C1 — disconnect: sweep before teardown, but tasks survive -/

/-- The cleanup sweep produces only cancellation calls and log lines, never
the connection teardown. -/
lemma cleanup_no_ibDisconnect (env : IBEnv) (st : AdapterState) :
    Effect.ibDisconnect ∉ (cleanup_subscriptions env st).2 := by
  intro hmem
  rcases List.mem_append.1 hmem with hmem | hmem
  · rcases List.mem_flatten.1 hmem with ⟨es, hes, hin⟩
    rcases List.mem_map.1 hes with ⟨p, _, rfl⟩
    unfold cleanupTickerEntry at hin
    cases hc : p.2.contract <;> rw [hc] at hin
    · simp at hin
    · rcases List.mem_cons.1 hin with h1 | h1
      · simp at h1
      · split at h1 <;> simp_all
  · rcases List.mem_flatten.1 hmem with ⟨es, hes, hin⟩
    rcases List.mem_map.1 hes with ⟨p, _, rfl⟩
    unfold cleanupDepthEntry at hin
    cases hc : p.2.contract <;> rw [hc] at hin
    · simp at hin
    · rcases List.mem_cons.1 hin with h1 | h1
      · simp at h1
      · split at h1 <;> simp_all

/-- C1 counterexample: connect, register a contract, subscribe to quotes,
disconnect — the registry is emptied, but the monitor task spawned by the
subscribe is still running after `disconnect` completes, refuting "zero
running monitor tasks": the code never stores or cancels the
`asyncio.create_task` handles. -/
def c1State : AdapterState :=
  match subscribe_top_of_book (define_contracts (connect initialState).1 ["AAPL"]) "AAPL" with
  | .ok p => p.1
  | .error _ => initialState

/-- C1 counterexample theorem: after `disconnect`, both registries are
empty, yet one monitor task is still running — not zero. -/
theorem disconnect_leaves_monitor_task_running :
    (disconnect env0 c1State).1.ticker_subs = []
    ∧ (disconnect env0 c1State).1.tasks ≠ [] := by decide

/-- C1 amended: on a connected adapter, `disconnect` cancels every registry
entry and empties both registries, and every cancellation call strictly
precedes the connection teardown in the effect order; however, the running
monitor tasks are untouched (the claim's "zero running monitor tasks" fails:
tasks are never stored nor cancelled). -/
theorem disconnect_clears_registry_not_tasks (env : IBEnv) (st : AdapterState)
    (h : st.connected = true) :
    (disconnect env st).1.ticker_subs = []
    ∧ (disconnect env st).1.l2_depth_subs = []
    ∧ (disconnect env st).1.connected = false
    ∧ (disconnect env st).1.tasks = st.tasks
    ∧ (disconnect env st).2.filterMap Effect.cancelTarget
        = (st.ticker_subs ++ st.l2_depth_subs).filterMap (fun p => p.2.contract)
    ∧ (∀ (i j : ℕ) (e : Effect), (disconnect env st).2[i]? = some e → e.isCancel = true →
        (disconnect env st).2[j]? = some Effect.ibDisconnect → i < j) := by
  have hd : disconnect env st =
      ({ (cleanup_subscriptions env st).1 with connected := false },
       (cleanup_subscriptions env st).2 ++ [.ibDisconnect, .logInfo "Disconnected."]) := by
    unfold disconnect
    rw [h]
    simp
  rw [hd]
  refine ⟨rfl, rfl, rfl, rfl, ?_, ?_⟩
  · have := cleanup_cancels_all env st
    simp only [List.filterMap_append, this]
    simp [Effect.cancelTarget]
  · intro i j e hi hcancel hj
    have hiL : i < (cleanup_subscriptions env st).2.length := by
      by_contra hge
      push_neg at hge
      rw [List.getElem?_append_right hge] at hi
      rcases hk : i - (cleanup_subscriptions env st).2.length with _ | k
      · rw [hk] at hi
        simp at hi
        rw [← hi] at hcancel
        simp [Effect.isCancel] at hcancel
      · rcases k with _ | k'
        · rw [hk] at hi
          simp at hi
          rw [← hi] at hcancel
          simp [Effect.isCancel] at hcancel
        · rw [hk] at hi
          simp at hi
    have hjL : (cleanup_subscriptions env st).2.length ≤ j := by
      by_contra hlt
      push_neg at hlt
      rw [List.getElem?_append_left hlt] at hj
      exact cleanup_no_ibDisconnect env st (List.getElem?_mem hj)
    omega

/-- Witness for the C1 amended theorem on the concrete connected state. -/
theorem disconnect_clears_registry_not_tasks_witness :
    c1State.connected = true
    ∧ (disconnect env0 c1State).1.tasks = c1State.tasks :=
  ⟨by decide, (disconnect_clears_registry_not_tasks env0 c1State (by decide)).2.2.2.1⟩

/-! ### C8 — subscribing twice: one registry entry, but two live monitors -/

/-- Unfolding a dict insert whose key matches the head entry. -/
lemma dictInsert_cons_self (v : FeedSub) (p : String × FeedSub)
    (rest : List (String × FeedSub)) :
    dictInsert p.1 v (p :: rest) = (p.1, v) :: rest := by
  simp [dictInsert]

/-- Unfolding a dict insert whose key differs from the head entry. -/
lemma dictInsert_cons_ne (k : String) (v : FeedSub) (p : String × FeedSub)
    (rest : List (String × FeedSub)) (hk : p.1 ≠ k) :
    dictInsert k v (p :: rest) = (p.1, p.2) :: dictInsert k v rest := by
  simp only [dictInsert]
  rw [if_neg hk]

/-- Keys after a dict insert: the inserted key plus the previous keys. -/
lemma mem_keys_dictInsert (k : String) (v : FeedSub) (l : List (String × FeedSub))
    (a : String) :
    a ∈ (dictInsert k v l).map Prod.fst ↔ a = k ∨ a ∈ l.map Prod.fst := by
  induction l with
  | nil => simp [dictInsert]
  | cons p rest ih =>
      by_cases hk : p.1 = k
      · subst hk
        rw [dictInsert_cons_self]
        simp only [List.map_cons, List.mem_cons]
        tauto
      · rw [dictInsert_cons_ne k v p rest hk]
        simp only [List.map_cons, List.mem_cons, ih]
        tauto

/-- A dict insert keeps the keys without repetition. -/
lemma nodup_keys_dictInsert (k : String) (v : FeedSub) (l : List (String × FeedSub))
    (h : (l.map Prod.fst).Nodup) :
    ((dictInsert k v l).map Prod.fst).Nodup := by
  induction l with
  | nil => simp [dictInsert]
  | cons p rest ih =>
      simp only [List.map_cons, List.nodup_cons] at h
      by_cases hk : p.1 = k
      · subst hk
        rw [dictInsert_cons_self]
        simp only [List.map_cons, List.nodup_cons]
        exact ⟨h.1, h.2⟩
      · rw [dictInsert_cons_ne k v p rest hk]
        simp only [List.map_cons, List.nodup_cons]
        refine ⟨fun hmem => ?_, ih h.2⟩
        rcases (mem_keys_dictInsert k v rest p.1).1 hmem with rfl | hmem
        · exact hk rfl
        · exact h.1 hmem

/-- In a dict with distinct keys, an inserted key occurs exactly once. -/
lemma count_keys_dictInsert (k : String) (v : FeedSub) (l : List (String × FeedSub))
    (h : (l.map Prod.fst).Nodup) :
    ((dictInsert k v l).map Prod.fst).count k = 1 := by
  induction l with
  | nil => simp [dictInsert]
  | cons p rest ih =>
      simp only [List.map_cons, List.nodup_cons] at h
      by_cases hk : p.1 = k
      · subst hk
        have hz : (rest.map Prod.fst).count p.1 = 0 := List.count_eq_zero.2 h.1
        rw [dictInsert_cons_self]
        simp [List.count_cons, hz]
      · have hne : ¬(k = p.1) := fun hkk => hk hkk.symm
        rw [dictInsert_cons_ne k v p rest hk]
        simp [List.count_cons, ih h.2, hne]

/-- The quote subscribe operation on a registered symbol, computed. -/
lemma subscribe_top_of_book_ok (st : AdapterState) (symbol : String)
    (h : symbol ∈ st.contracts) :
    subscribe_top_of_book st symbol =
      .ok ({ st with
              ticker_subs := dictInsert symbol ⟨some symbol⟩ st.ticker_subs
              tasks := st.tasks ++ [⟨st.nextTask, symbol, .topOfBook⟩]
              nextTask := st.nextTask + 1 },
           [.reqMktData symbol, .createTask st.nextTask,
            .logInfo ("Subscribed to top-of-book for " ++ symbol)]) := by
  unfold subscribe_top_of_book
  rw [if_pos h]

/-- C8 counterexample state: two quote subscriptions for the same symbol. -/
def c8State : AdapterState :=
  match subscribe_top_of_book stOneContract "AAPL" with
  | .ok p =>
      (match subscribe_top_of_book p.1 "AAPL" with
       | .ok q => q.1
       | .error _ => initialState)
  | .error _ => initialState

/-- C8 counterexample theorem: after subscribing to quotes for "AAPL" twice,
the registry does hold a single entry, but two monitor tasks for
("AAPL", quotes) are running — the first subscription's monitor was neither
returned unchanged nor stopped, refuting "its monitor does not keep running
and emitting". -/
theorem subscribe_twice_counterexample :
    c8State.ticker_subs.map Prod.fst = ["AAPL"]
    ∧ (c8State.tasks.filter
        (fun t => decide (t.symbol = "AAPL" ∧ t.kind = MonitorKind.topOfBook))).length = 2 := by
  decide

/-- C8 amended: for a registered symbol, subscribing to quotes twice leaves
exactly one registry entry under that symbol (Python dict overwrite), but
the first monitor task is leaked: both created monitor tasks remain in the
running set. -/
theorem subscribe_twice_single_entry_but_two_tasks (st : AdapterState) (symbol : String)
    (h : symbol ∈ st.contracts) (hnd : (st.ticker_subs.map Prod.fst).Nodup) :
    ∃ st1 effs1 st2 effs2,
      subscribe_top_of_book st symbol = .ok (st1, effs1)
      ∧ subscribe_top_of_book st1 symbol = .ok (st2, effs2)
      ∧ (st2.ticker_subs.map Prod.fst).count symbol = 1
      ∧ st2.tasks = st.tasks ++
          [⟨st.nextTask, symbol, .topOfBook⟩, ⟨st.nextTask + 1, symbol, .topOfBook⟩] := by
  refine ⟨_, _, _, _, subscribe_top_of_book_ok st symbol h,
    subscribe_top_of_book_ok _ symbol h, ?_, by simp⟩
  exact count_keys_dictInsert _ _ _ (nodup_keys_dictInsert _ _ _ hnd)

/-- Witness for the C8 amended theorem on a concrete one-contract state. -/
theorem subscribe_twice_single_entry_but_two_tasks_witness :
    ("AAPL" ∈ stOneContract.contracts ∧ (stOneContract.ticker_subs.map Prod.fst).Nodup)
    ∧ ∃ st1 effs1 st2 effs2,
      subscribe_top_of_book stOneContract "AAPL" = .ok (st1, effs1)
      ∧ subscribe_top_of_book st1 "AAPL" = .ok (st2, effs2)
      ∧ (st2.ticker_subs.map Prod.fst).count "AAPL" = 1
      ∧ st2.tasks = stOneContract.tasks ++
          [⟨stOneContract.nextTask, "AAPL", .topOfBook⟩,
           ⟨stOneContract.nextTask + 1, "AAPL", .topOfBook⟩] :=
  ⟨⟨by decide, by decide⟩,
   subscribe_twice_single_entry_but_two_tasks stOneContract "AAPL" (by decide) (by decide)⟩

/-! ### C4 — the dedup filter emits exactly one snapshot per run -/

/-- Running the quote monitor over concatenated reads threads the
`prev_snapshot` cache through. -/
lemma monitorRun_append (prev : Option TopOfBookMessage) (a b : List Ticker) :
    monitorRun prev (a ++ b) =
      ((monitorRun prev a).1 ++ (monitorRun (monitorRun prev a).2 b).1,
       (monitorRun (monitorRun prev a).2 b).2) := by
  induction a generalizing prev with
  | nil => simp [monitorRun]
  | cons t ts ih => simp [monitorRun, ih, List.append_assoc]

/-- When the cache already holds the snapshot every read constructs, the
monitor emits nothing and the cache is unchanged. -/
lemma monitorRun_allEq_skip (s : TopOfBookMessage) (run : List Ticker)
    (hall : ∀ u ∈ run, TopOfBookMessage.ofDict (normalize_ticker u) = some s) :
    monitorRun (some s) run = ([], some s) := by
  induction run with
  | nil => rfl
  | cons t rest ih =>
      have ht := hall t (by simp)
      have hr := ih fun u hu => hall u (by simp [hu])
      simp [monitorRun, monitorStep, ht, hr]

/-- Over a non-empty run of reads that all construct the same snapshot, the
monitor emits that snapshot exactly once if the cache differs from it and
not at all otherwise, and ends with that snapshot cached. -/
lemma monitorRun_const (s : TopOfBookMessage) (t : Ticker) (rest : List Ticker)
    (prev : Option TopOfBookMessage)
    (ht : TopOfBookMessage.ofDict (normalize_ticker t) = some s)
    (hall : ∀ u ∈ rest, TopOfBookMessage.ofDict (normalize_ticker u) = some s) :
    monitorRun prev (t :: rest) = ((if prev = some s then [] else [s]), some s) := by
  by_cases hp : prev = some s
  · subst hp
    simp [monitorRun, monitorStep, ht, monitorRun_allEq_skip s rest hall]
  · have hp2 : ¬(some s = prev) := fun h => hp h.symm
    simp [monitorRun, monitorStep, ht, hp, hp2, monitorRun_allEq_skip s rest hall]

/-- Each step either emits nothing and keeps the cache, or emits one
snapshot and caches it. -/
lemma monitorStep_shape (prev : Option TopOfBookMessage) (t : Ticker) :
    (monitorStep prev t).1 = [] ∧ (monitorStep prev t).2 = prev
    ∨ ∃ s, (monitorStep prev t).1 = [s] ∧ (monitorStep prev t).2 = some s := by
  unfold monitorStep
  cases TopOfBookMessage.ofDict (normalize_ticker t) with
  | none => simp
  | some s =>
      by_cases hp : some s = prev
      · simp [hp]
      · simp [hp]

/-- The `prev_snapshot` cache after a run equals the last emitted snapshot,
or the starting cache if nothing was emitted. -/
lemma monitorRun_snd (reads : List Ticker) :
    ∀ prev, (monitorRun prev reads).2 = ((monitorRun prev reads).1.getLast?).elim prev some := by
  induction reads with
  | nil => intro prev; simp [monitorRun]
  | cons t ts ih =>
      intro prev
      simp only [monitorRun]
      rcases monitorStep_shape prev t with ⟨h1, h2⟩ | ⟨s, h1, h2⟩ <;> rw [h1, h2]
      · simp [ih]
      · have hr := ih (some s)
        cases hx : (monitorRun (some s) ts).1 with
        | nil =>
            rw [hx] at hr
            simp [hx, hr]
        | cons x xs =>
            rw [hx] at hr
            rw [hr]
            have hsome : (x :: xs).getLast? = some ((x :: xs).getLast (by simp)) :=
              List.getLast?_eq_getLast _ (by simp)
            simp [hsome]

/-- From the empty starting cache, the cache is exactly the last emitted
snapshot. -/
lemma monitorFinal_eq_getLast (reads : List Ticker) :
    monitorFinal reads = (monitorEmits reads).getLast? := by
  unfold monitorFinal monitorEmits
  rw [monitorRun_snd reads Option.none]
  cases hx : (monitorRun Option.none reads).1.getLast? <;> simp

/-- C4: appending a non-empty run of reads that all construct the same
snapshot `s` to any read history adds exactly one emission of `s` if `s`
differs from the last emitted snapshot, and no emission at all otherwise:
the dedup filter enqueues a snapshot iff it differs field-wise from the
last enqueued one, and a run of equal reads yields at most one message. -/
theorem monitor_dedup_emits_once_per_run (pre run : List Ticker) (s : TopOfBookMessage)
    (hne : run ≠ [])
    (hall : ∀ u ∈ run, TopOfBookMessage.ofDict (normalize_ticker u) = some s) :
    monitorEmits (pre ++ run) =
      monitorEmits pre ++ (if (monitorEmits pre).getLast? = some s then [] else [s]) := by
  obtain ⟨t, rest, rfl⟩ : ∃ t rest, run = t :: rest := by
    cases run with
    | nil => exact absurd rfl hne
    | cons t rest => exact ⟨t, rest, rfl⟩
  have hconst := monitorRun_const s t rest (monitorRun Option.none pre).2
    (hall t (by simp)) (fun u hu => hall u (by simp [hu]))
  have hfin : (monitorRun Option.none pre).2 = (monitorEmits pre).getLast? :=
    monitorFinal_eq_getLast pre
  have key : monitorEmits (pre ++ t :: rest) =
      (monitorRun Option.none pre).1
        ++ (if (monitorRun Option.none pre).2 = some s then [] else [s]) := by
    unfold monitorEmits
    rw [monitorRun_append, hconst]
  rw [key, hfin]
  rfl

/-- Witness for C4: two identical reads after an empty history emit the
snapshot exactly once. -/
theorem monitor_dedup_emits_once_per_run_witness :
    (([tickerA, tickerA] : List Ticker) ≠ []
      ∧ ∀ u ∈ [tickerA, tickerA],
          TopOfBookMessage.ofDict (normalize_ticker u) = some snapshotA)
    ∧ monitorEmits ([] ++ [tickerA, tickerA]) =
        monitorEmits []
          ++ (if (monitorEmits []).getLast? = some snapshotA then [] else [snapshotA]) :=
  ⟨⟨by decide, by decide⟩,
   monitor_dedup_emits_once_per_run [] [tickerA, tickerA] snapshotA (by decide) (by decide)⟩

/-! ### C3 — incremental-list monitor: no gap, no duplicate -/

/-- `getLast?` with a default, across a cons. -/
lemma getLast_getD_cons {α : Type} (a d : α) (ls : List α) :
    ((a :: ls).getLast?).getD d = (ls.getLast?).getD a := by
  cases ls with
  | nil => simp
  | cons b bs =>
      rw [List.getLast?_cons_cons]
      have hsome : (b :: bs).getLast? = some ((b :: bs).getLast (by simp)) :=
        List.getLast?_eq_getLast _ (by simp)
      rw [hsome]
      simp

/-- In a chain of list extensions, the head extends to the last element. -/
lemma chain_head_last (ls : List (List TickEntry)) :
    ∀ l : List TickEntry, List.Chain' (· <+: ·) (l :: ls) →
      l <+: (ls.getLast?.getD l) := by
  induction ls with
  | nil => intro l _; exact ⟨[], by simp⟩
  | cons a as ih =>
      intro l hch
      have h1 : l <+: a := (List.chain'_cons.1 hch).1
      have h3 := ih a (List.chain'_cons.1 hch).2
      rw [getLast_getD_cons]
      obtain ⟨t1, ht1⟩ := h1
      obtain ⟨t2, ht2⟩ := h3
      exact ⟨t1 ++ t2, by rw [← List.append_assoc, ht1, ht2]⟩

/-- One poll cycle on a list that extends the already-processed part: the
new entries are emitted in order and the cursor advances to the length. -/
lemma ticks_step_grown (sym tt : String) (prev l : List TickEntry)
    (h : prev <+: l) :
    monitor_ticks_step sym tt l prev.length =
      ((l.drop prev.length).map (mkTickByTickMessage sym tt), l.length) := by
  obtain ⟨t, rfl⟩ := h
  unfold monitor_ticks_step
  by_cases hne : prev ++ t = []
  · obtain ⟨h1, h2⟩ := List.append_eq_nil.1 hne
    subst h1
    subst h2
    simp
  · by_cases hlen : (prev ++ t).length > prev.length
    · rw [if_pos ⟨hne, hlen⟩]
    · rw [if_neg (by tauto)]
      have ht : t = [] := by
        rw [List.length_append] at hlen
        have : t.length = 0 := by omega
        exact List.length_eq_zero.1 this
      subst ht
      simp

/-- Running the incremental-list monitor from a cursor matching an
already-seen state, over a chain of list extensions: the emissions are
exactly the new entries beyond the starting state, in order, and the cursor
ends at the final length. -/
lemma ticks_run_chain (sym tt : String) :
    ∀ (seq : List (List TickEntry)) (prev : List TickEntry),
      List.Chain' (· <+: ·) (prev :: seq) →
      monitor_ticks_run sym tt prev.length seq =
        (((seq.getLast?.getD prev).drop prev.length).map (mkTickByTickMessage sym tt),
         (seq.getLast?.getD prev).length) := by
  intro seq
  induction seq with
  | nil => intro prev _; simp [monitor_ticks_run]
  | cons l ls ih =>
      intro prev hch
      have h1 : prev <+: l := (List.chain'_cons.1 hch).1
      have h2 := (List.chain'_cons.1 hch).2
      have hstep := ticks_step_grown sym tt prev l h1
      have hrec := ih l h2
      have hlast := chain_head_last ls l h2
      simp only [monitor_ticks_run]
      rw [hstep]
      simp only [getLast_getD_cons]
      rw [hrec]
      obtain ⟨t2, ht2⟩ := hlast
      obtain ⟨t1, ht1⟩ := h1
      have hle : prev.length ≤ l.length := by rw [← ht1]; simp
      refine Prod.ext ?_ rfl
      show (l.drop prev.length).map (mkTickByTickMessage sym tt)
          ++ ((ls.getLast?.getD l).drop l.length).map (mkTickByTickMessage sym tt)
        = ((ls.getLast?.getD l).drop prev.length).map (mkTickByTickMessage sym tt)
      rw [← ht2, List.drop_left, List.drop_append_of_le_length hle, List.map_append]

/-- C3: over any grows-only sequence of observed tick-list states (each
state extends the previous one), the monitor, started at cursor 0, emits
exactly one message per list index in list order — no index twice, no index
skipped: the concatenated emissions equal the final list's contents mapped
to messages, and after each processing cycle the cursor equals that cycle's
list length. -/
theorem ticks_run_no_gap_no_dup (sym tt : String) (seq : List (List TickEntry))
    (hchain : List.Chain' (· <+: ·) seq) :
    (monitor_ticks_run sym tt 0 seq).1 =
      (seq.getLast?.getD []).map (mkTickByTickMessage sym tt)
    ∧ ∀ i : ℕ, (monitor_ticks_run sym tt 0 (seq.take i)).2 =
        ((seq.take i).getLast?.getD []).length := by
  have hmain : ∀ s2 : List (List TickEntry), List.Chain' (· <+: ·) s2 →
      monitor_ticks_run sym tt 0 s2 =
        ((s2.getLast?.getD []).map (mkTickByTickMessage sym tt),
         (s2.getLast?.getD []).length) := by
    intro s2 h2
    have hch : List.Chain' (· <+: ·) (([] : List TickEntry) :: s2) := by
      cases s2 with
      | nil => simp
      | cons a as => exact List.chain'_cons.2 ⟨⟨a, rfl⟩, h2⟩
    have := ticks_run_chain sym tt s2 [] hch
    simpa using this
  constructor
  · rw [hmain seq hchain]
  · intro i
    rw [hmain (seq.take i) (hchain.take i)]

/-- The grows-only scenario of the spec, lengths 0 → 2 → 2. -/
def c3Seq : List (List TickEntry) := [[], [tick0, tick1], [tick0, tick1]]

/-- Witness for C3 on the concrete grows-only sequence. -/
theorem ticks_run_no_gap_no_dup_witness :
    List.Chain' (· <+: ·) c3Seq
    ∧ ((monitor_ticks_run "AAPL" "Last" 0 c3Seq).1 =
        (c3Seq.getLast?.getD []).map (mkTickByTickMessage "AAPL" "Last")
      ∧ ∀ i : ℕ, (monitor_ticks_run "AAPL" "Last" 0 (c3Seq.take i)).2 =
          ((c3Seq.take i).getLast?.getD []).length) := by
  have hch : List.Chain' (· <+: ·) c3Seq := by
    refine List.chain'_cons.2 ⟨⟨[tick0, tick1], rfl⟩, ?_⟩
    refine List.chain'_cons.2 ⟨⟨[], by simp⟩, ?_⟩
    simp
  exact ⟨hch, ticks_run_no_gap_no_dup "AAPL" "Last" c3Seq hch⟩

end MarketData
